import Mathlib

/-!
Shallow embedding of the `uuid` Go package (RFC 4122 version-4 / variant-1
UUID helpers) together with theorems checking its specification.

Modelling conventions:
* Go strings are `List Char` (`GoStr`).
* A Go multi-value return `(T, error)` is a pair `T × Option GoStr`,
  where the second component is `none` for a nil error and `some msg`
  for a non-nil error with message `msg`.
* A Go `panic` is the `none` case of an outer `Option`.
* The cryptographic random source is an explicit tape (`RandTape`) of
  the results of the successive draws that `Ver4Var1` performs:
  `randutil.Hex(8)`, `Hex(4)`, `Hex(4)`, `rand.Int(rand.Reader, 4)`
  (the primitive underlying `randInt`), `Hex(4)`, `Hex(12)`.
-/

namespace uuid

/-- Go strings, modelled as lists of characters. -/
abbrev GoStr := List Char

/-- A Go `(T, error)` return value: the payload together with an optional
error message (`none` means the error was nil). -/
abbrev GoRes (α : Type) := α × Option GoStr

/-- The regex character class `[0-9a-fA-F]` used by `uuidV4Regex`. -/
def isHexDigit (c : Char) : Bool :=
  ('0' ≤ c && c ≤ '9') || ('a' ≤ c && c ≤ 'f') || ('A' ≤ c && c ≤ 'F')

/-- `variant1Chars` from the source: the allowed characters for the
variant nibble (variant 1), `"89AB"`. -/
def variant1Chars : GoStr := "89AB".data

/-- Matcher for `[0-9a-fA-F]{n}`: consumes exactly `n` hex digits from the
front of the input, returning the rest, or `none` if that is impossible. -/
def matchHex : Nat → GoStr → Option GoStr
  | 0, s => some s
  | _ + 1, [] => none
  | n + 1, c :: s => if isHexDigit c then matchHex n s else none

/-- Matcher for a literal character of the regex (`-` or `4`). -/
def matchLit (c : Char) : GoStr → Option GoStr
  | [] => none
  | d :: s => if d = c then some s else none

/-- Matcher for the regex character class `[89ABab]` (the variant nibble). -/
def matchVariantClass : GoStr → Option GoStr
  | [] => none
  | d :: s =>
      if d = '8' ∨ d = '9' ∨ d = 'A' ∨ d = 'B' ∨ d = 'a' ∨ d = 'b' then some s
      else none

/-- Runs the body of `uuidV4Regex`
`[0-9a-fA-F]{8}-[0-9a-fA-F]{4}-4[0-9a-fA-F]{3}-[89ABab][0-9a-fA-F]{3}-[0-9a-fA-F]{12}`
from the start of the input, returning the unconsumed suffix on success. -/
def regexRun (s : GoStr) : Option GoStr := do
  let s ← matchHex 8 s
  let s ← matchLit '-' s
  let s ← matchHex 4 s
  let s ← matchLit '-' s
  let s ← matchLit '4' s
  let s ← matchHex 3 s
  let s ← matchLit '-' s
  let s ← matchVariantClass s
  let s ← matchHex 3 s
  let s ← matchLit '-' s
  matchHex 12 s

/-- `uuidV4Regex.MatchString`: the regex is anchored (`^...$`), so the
whole input must be consumed. -/
def uuidV4RegexMatch (s : GoStr) : Bool :=
  decide (regexRun s = some [])

/-- `Ver4Var1FromString` from the source: length check, then regex check,
then return the input unchanged.  Error strings follow `fmt.Errorf`. -/
def Ver4Var1FromString (s : GoStr) : GoRes GoStr :=
  if s.length ≠ 36 then
    ([], some ("Ver4Var1FromString: expected string length of 36 for UUID: ".data ++ s))
  else if ¬ uuidV4RegexMatch s then
    ([], some ("Ver4Var1FromString: invalid UUID input: ".data ++ s))
  else
    (s, none)

/-- `MustVer4Var1FromString` from the source: panics (`none`) when
`Ver4Var1FromString` returns an error, otherwise returns the UUID. -/
def MustVer4Var1FromString (s : GoStr) : Option GoStr :=
  match Ver4Var1FromString s with
  | (u, none) => some u
  | (_, some _) => none

/-- The package-level `zero` variable:
`MustVer4Var1FromString("00000000-0000-4000-8000-000000000000")`. -/
def zero : Option GoStr :=
  MustVer4Var1FromString "00000000-0000-4000-8000-000000000000".data

/-- `Zero()` from the source: returns the `zero` package variable. -/
def Zero : Option GoStr := zero

/-- `IsValid` from the source: a bare regex match, with no separate
length check. -/
def IsValid (s : GoStr) : Bool := uuidV4RegexMatch s

/-- `randInt(min, max)` from the source, with the result of the underlying
`rand.Int(rand.Reader, big.NewInt(max-min+1))` call passed in explicitly
as `draw`.  On a draw error it returns `(0, err)`; otherwise it returns
the drawn value shifted by `min`. -/
def randInt (lo _hi : Int) (draw : GoRes Int) : GoRes Int :=
  match draw with
  | (_, some e) => (0, some e)
  | (n, none) => (n + lo, none)

/-- The random tape consumed by one call of `Ver4Var1`: the results of its
five `randutil.Hex` calls and of the `rand.Int` primitive inside
`randInt` (whose modulus there is `len(variant1Chars) - 1 - 0 + 1 = 4`). -/
structure RandTape where
  hex8 : GoRes GoStr
  hex4a : GoRes GoStr
  hex4b : GoRes GoStr
  int4 : GoRes Int
  hex4c : GoRes GoStr
  hex12 : GoRes GoStr

/-- Error wrapping `fmt.Errorf("Ver4Var1: %w", err)`. -/
def wrapVer4Var1Err (e : GoStr) : GoStr := "Ver4Var1: ".data ++ e

/-- `Ver4Var1` from the source, evaluated against a random tape.
The outer `Option` is `none` exactly when the Go code would panic:
slicing `part3Hex[1:]` or `part4Suffix[1:]` on a string shorter than 1,
or indexing `variant1Chars[idx]` out of bounds. -/
def Ver4Var1 (t : RandTape) : Option (GoRes GoStr) :=
  match t.hex8 with
  | (_, some e) => some ([], some (wrapVer4Var1Err e))
  | (part1, none) =>
  match t.hex4a with
  | (_, some e) => some ([], some (wrapVer4Var1Err e))
  | (part2, none) =>
  match t.hex4b with
  | (_, some e) => some ([], some (wrapVer4Var1Err e))
  | (part3Hex, none) =>
  match part3Hex with
  | [] => none
  | _ :: part3Tail =>
  match randInt 0 ((variant1Chars.length : Int) - 1) t.int4 with
  | (_, some e) => some ([], some (wrapVer4Var1Err e))
  | (idx, none) =>
  if hidx : 0 ≤ idx ∧ idx.toNat < variant1Chars.length then
    match t.hex4c with
    | (_, some e) => some ([], some (wrapVer4Var1Err e))
    | (part4Suffix, none) =>
    match part4Suffix with
    | [] => none
    | _ :: part4Tail =>
    match t.hex12 with
    | (_, some e) => some ([], some (wrapVer4Var1Err e))
    | (part5, none) =>
      some (part1 ++ ('-' :: (part2 ++ ('-' :: (('4' :: part3Tail) ++
        ('-' :: ((variant1Chars.get ⟨idx.toNat, hidx.2⟩ :: part4Tail) ++
        ('-' :: part5))))))), none)
  else none

/-- `MustVer4Var1` from the source: panics (`none`) when `Ver4Var1`
returns an error (or itself panics), otherwise returns the UUID. -/
def MustVer4Var1 (t : RandTape) : Option GoStr :=
  match Ver4Var1 t with
  | none => none
  | some (_, some _) => none
  | some (u, none) => some u

/-- Contract of `randutil.Hex n`: when the draw succeeds, the returned
string has length `n` and consists of hex digits. -/
def HexDraw (r : GoRes GoStr) (n : Nat) : Prop :=
  r.2 = none → r.1.length = n ∧ r.1.all isHexDigit = true

/-- Contract of the `rand.Int(rand.Reader, big.NewInt(4))` primitive used
by `randInt 0 3`: when the draw succeeds, its value lies in `[0, 4)`. -/
def IntDraw4 (r : GoRes Int) : Prop :=
  r.2 = none → 0 ≤ r.1 ∧ r.1 < 4

instance (r : GoRes GoStr) (n : Nat) : Decidable (HexDraw r n) := by
  unfold HexDraw
  infer_instance

instance (r : GoRes Int) : Decidable (IntDraw4 r) := by
  unfold IntDraw4
  infer_instance

/-- Spec-side validity predicate, following the specification text
character for character: the string has exactly 36 characters, hyphens at
0-indexed positions 8, 13, 18, 23, the literal `4` at position 14, a
character of `{8,9,A,B}` (case-insensitively) at position 19, and hex
digits everywhere else. -/
def specValid (s : GoStr) : Bool :=
  decide (s.length = 36) &&
  isHexDigit (s.getD 0 ' ') && isHexDigit (s.getD 1 ' ') &&
  isHexDigit (s.getD 2 ' ') && isHexDigit (s.getD 3 ' ') &&
  isHexDigit (s.getD 4 ' ') && isHexDigit (s.getD 5 ' ') &&
  isHexDigit (s.getD 6 ' ') && isHexDigit (s.getD 7 ' ') &&
  decide (s.getD 8 ' ' = '-') &&
  isHexDigit (s.getD 9 ' ') && isHexDigit (s.getD 10 ' ') &&
  isHexDigit (s.getD 11 ' ') && isHexDigit (s.getD 12 ' ') &&
  decide (s.getD 13 ' ' = '-') &&
  decide (s.getD 14 ' ' = '4') &&
  isHexDigit (s.getD 15 ' ') && isHexDigit (s.getD 16 ' ') &&
  isHexDigit (s.getD 17 ' ') &&
  decide (s.getD 18 ' ' = '-') &&
  decide (s.getD 19 ' ' = '8' ∨ s.getD 19 ' ' = '9' ∨ s.getD 19 ' ' = 'A' ∨
    s.getD 19 ' ' = 'B' ∨ s.getD 19 ' ' = 'a' ∨ s.getD 19 ' ' = 'b') &&
  isHexDigit (s.getD 20 ' ') && isHexDigit (s.getD 21 ' ') &&
  isHexDigit (s.getD 22 ' ') &&
  decide (s.getD 23 ' ' = '-') &&
  isHexDigit (s.getD 24 ' ') && isHexDigit (s.getD 25 ' ') &&
  isHexDigit (s.getD 26 ' ') && isHexDigit (s.getD 27 ' ') &&
  isHexDigit (s.getD 28 ' ') && isHexDigit (s.getD 29 ' ') &&
  isHexDigit (s.getD 30 ' ') && isHexDigit (s.getD 31 ' ') &&
  isHexDigit (s.getD 32 ' ') && isHexDigit (s.getD 33 ' ') &&
  isHexDigit (s.getD 34 ' ') && isHexDigit (s.getD 35 ' ')


/-! ### Helper lemmas about the regex matchers -/

theorem opt_bind_ite {α β : Type} (p : Prop) [inst : Decidable p] (a b : Option α)
    (f : α → Option β) : (if p then a else b).bind f = if p then a.bind f else b.bind f := by
  split <;> rfl

theorem matchHex_length {n : Nat} {s r : GoStr} (h : matchHex n s = some r) :
    s.length = n + r.length := by
  induction n generalizing s with
  | zero => simp [matchHex] at h; simp [h]
  | succ n ih =>
    match s with
    | [] => simp [matchHex] at h
    | c :: s =>
      simp only [matchHex] at h
      by_cases hc : isHexDigit c = true
      · simp [hc] at h
        have := ih h
        simp [this]
        omega
      · simp [hc] at h

theorem matchLit_length {c : Char} {s r : GoStr} (h : matchLit c s = some r) :
    s.length = 1 + r.length := by
  match s with
  | [] => simp [matchLit] at h
  | d :: s =>
    simp only [matchLit] at h
    by_cases hc : d = c
    · simp [hc] at h; simp [h]; omega
    · simp [hc] at h

theorem matchVariantClass_length {s r : GoStr} (h : matchVariantClass s = some r) :
    s.length = 1 + r.length := by
  match s with
  | [] => simp [matchVariantClass] at h
  | d :: s =>
    simp only [matchVariantClass] at h
    split at h
    · simp at h; simp [h]; omega
    · simp at h

theorem regexRun_length {s r : GoStr} (h : regexRun s = some r) :
    s.length = 36 + r.length := by
  simp only [regexRun, bind, Option.bind_eq_some] at h
  obtain ⟨s1, h1, s2, h2, s3, h3, s4, h4, s5, h5, s6, h6, s7, h7, s8, h8, s9, h9, s10, h10, h11⟩ := h
  have := matchHex_length h1
  have := matchLit_length h2
  have := matchHex_length h3
  have := matchLit_length h4
  have := matchLit_length h5
  have := matchHex_length h6
  have := matchLit_length h7
  have := matchVariantClass_length h8
  have := matchHex_length h9
  have := matchLit_length h10
  have := matchHex_length h11
  omega

theorem uuidV4RegexMatch_length {s : GoStr} (h : uuidV4RegexMatch s = true) :
    s.length = 36 := by
  simp only [uuidV4RegexMatch, decide_eq_true_eq] at h
  have := regexRun_length h
  simpa using this

theorem specValid_length {s : GoStr} (h : specValid s = true) : s.length = 36 := by
  simp only [specValid, Bool.and_eq_true, decide_eq_true_eq, and_assoc] at h
  exact h.1

set_option maxHeartbeats 1000000 in
/-- The regex match agrees with the positional spec predicate on strings
of length 36 (on shorter or longer strings both are false). -/
theorem regexMatch_iff_specValid_of_length (s : GoStr) (hlen : s.length = 36) :
    uuidV4RegexMatch s = true ↔ specValid s = true := by
  rcases s with _ | ⟨c0, s⟩
  · simp at hlen
  rcases s with _ | ⟨c1, s⟩
  · simp at hlen
  rcases s with _ | ⟨c2, s⟩
  · simp at hlen
  rcases s with _ | ⟨c3, s⟩
  · simp at hlen
  rcases s with _ | ⟨c4, s⟩
  · simp at hlen
  rcases s with _ | ⟨c5, s⟩
  · simp at hlen
  rcases s with _ | ⟨c6, s⟩
  · simp at hlen
  rcases s with _ | ⟨c7, s⟩
  · simp at hlen
  rcases s with _ | ⟨c8, s⟩
  · simp at hlen
  rcases s with _ | ⟨c9, s⟩
  · simp at hlen
  rcases s with _ | ⟨c10, s⟩
  · simp at hlen
  rcases s with _ | ⟨c11, s⟩
  · simp at hlen
  rcases s with _ | ⟨c12, s⟩
  · simp at hlen
  rcases s with _ | ⟨c13, s⟩
  · simp at hlen
  rcases s with _ | ⟨c14, s⟩
  · simp at hlen
  rcases s with _ | ⟨c15, s⟩
  · simp at hlen
  rcases s with _ | ⟨c16, s⟩
  · simp at hlen
  rcases s with _ | ⟨c17, s⟩
  · simp at hlen
  rcases s with _ | ⟨c18, s⟩
  · simp at hlen
  rcases s with _ | ⟨c19, s⟩
  · simp at hlen
  rcases s with _ | ⟨c20, s⟩
  · simp at hlen
  rcases s with _ | ⟨c21, s⟩
  · simp at hlen
  rcases s with _ | ⟨c22, s⟩
  · simp at hlen
  rcases s with _ | ⟨c23, s⟩
  · simp at hlen
  rcases s with _ | ⟨c24, s⟩
  · simp at hlen
  rcases s with _ | ⟨c25, s⟩
  · simp at hlen
  rcases s with _ | ⟨c26, s⟩
  · simp at hlen
  rcases s with _ | ⟨c27, s⟩
  · simp at hlen
  rcases s with _ | ⟨c28, s⟩
  · simp at hlen
  rcases s with _ | ⟨c29, s⟩
  · simp at hlen
  rcases s with _ | ⟨c30, s⟩
  · simp at hlen
  rcases s with _ | ⟨c31, s⟩
  · simp at hlen
  rcases s with _ | ⟨c32, s⟩
  · simp at hlen
  rcases s with _ | ⟨c33, s⟩
  · simp at hlen
  rcases s with _ | ⟨c34, s⟩
  · simp at hlen
  rcases s with _ | ⟨c35, s⟩
  · simp at hlen
  rcases s with _ | ⟨c36, s⟩
  case cons.cons => simp at hlen
  simp only [uuidV4RegexMatch, regexRun, matchHex, matchLit, matchVariantClass, bind,
    opt_bind_ite, Option.some_bind, Option.none_bind, Option.ite_none_right_eq_some,
    decide_eq_true_eq, Option.some.injEq, specValid, List.getD, List.get?, Option.getD_some,
    List.length_cons, List.length_nil, Bool.and_eq_true]
  simp only [and_assoc, true_and, and_true]

/-- The regex match agrees with the positional spec predicate on all strings. -/
theorem regexMatch_iff_specValid (s : GoStr) :
    uuidV4RegexMatch s = true ↔ specValid s = true := by
  by_cases hlen : s.length = 36
  · exact regexMatch_iff_specValid_of_length s hlen
  · constructor
    · intro h; exact absurd (uuidV4RegexMatch_length h) hlen
    · intro h; exact absurd (specValid_length h) hlen


theorem matchHex_append {p : GoStr} {n : Nat} (hl : p.length = n)
    (hh : p.all isHexDigit = true) {r : GoStr} : matchHex n (p ++ r) = some r := by
  induction p generalizing n with
  | nil => subst hl; simp [matchHex]
  | cons c p ih =>
    subst hl
    simp only [List.all_cons, Bool.and_eq_true] at hh
    simp [matchHex, hh.1, ih rfl hh.2]

theorem matchLit_cons (c : Char) (s : GoStr) : matchLit c (c :: s) = some s := by
  simp [matchLit]

theorem matchVariantClass_cons {vc : Char}
    (hv : vc = '8' ∨ vc = '9' ∨ vc = 'A' ∨ vc = 'B' ∨ vc = 'a' ∨ vc = 'b')
    (s : GoStr) : matchVariantClass (vc :: s) = some s := by
  simp only [matchVariantClass]
  exact if_pos hv

theorem matchHex_exact {p : GoStr} {n : Nat} (hl : p.length = n)
    (hh : p.all isHexDigit = true) : matchHex n p = some [] := by
  have := matchHex_append hl hh (r := [])
  simpa using this

theorem regexRun_assembled {p1 p2 p3t p4t p5 : GoStr} {vc : Char}
    (h1l : p1.length = 8) (h1h : p1.all isHexDigit = true)
    (h2l : p2.length = 4) (h2h : p2.all isHexDigit = true)
    (h3l : p3t.length = 3) (h3h : p3t.all isHexDigit = true)
    (hv : vc = '8' ∨ vc = '9' ∨ vc = 'A' ∨ vc = 'B' ∨ vc = 'a' ∨ vc = 'b')
    (h4l : p4t.length = 3) (h4h : p4t.all isHexDigit = true)
    (h5l : p5.length = 12) (h5h : p5.all isHexDigit = true) :
    regexRun (p1 ++ ('-' :: (p2 ++ ('-' :: (('4' :: p3t) ++
      ('-' :: ((vc :: p4t) ++ ('-' :: p5)))))))) = some [] := by
  simp only [regexRun, bind, List.cons_append, List.append_assoc]
  simp only [matchHex_append h1l h1h, matchHex_append h2l h2h, matchHex_append h3l h3h,
    matchHex_append h4l h4h, matchLit_cons, matchVariantClass_cons hv, Option.some_bind,
    matchHex_exact h5l h5h]


theorem getD_append_cons {p : GoStr} {n : Nat} (h : p.length = n) (c : Char) (r : GoStr) :
    (p ++ (c :: r)).getD n ' ' = c := by
  subst h
  rw [List.getD_eq_getElem?_getD, List.getElem?_append_right (Nat.le_refl _)]
  simp

theorem variant1Chars_get (i : Fin variant1Chars.length) :
    variant1Chars.get i = '8' ∨ variant1Chars.get i = '9' ∨
      variant1Chars.get i = 'A' ∨ variant1Chars.get i = 'B' := by
  revert i
  decide

theorem ver4var1_ok (t : RandTape) (h8 : HexDraw t.hex8 8) (h4a : HexDraw t.hex4a 4)
    (h4b : HexDraw t.hex4b 4) (h4c : HexDraw t.hex4c 4) (h12 : HexDraw t.hex12 12)
    {u : GoStr} (hu : Ver4Var1 t = some (u, none)) :
    uuidV4RegexMatch u = true ∧ u.length = 36 ∧ u.getD 14 ' ' = '4' ∧
      (u.getD 19 ' ' = '8' ∨ u.getD 19 ' ' = '9' ∨ u.getD 19 ' ' = 'A' ∨
        u.getD 19 ' ' = 'B') := by
  obtain ⟨⟨v1, e1⟩, ⟨v2, e2⟩, ⟨v3, e3⟩, ⟨vi, ei⟩, ⟨v4, e4⟩, ⟨v5, e5⟩⟩ := t
  cases e1
  case some e => simp [Ver4Var1] at hu
  case none =>
  obtain ⟨hl1, hh1⟩ := h8 rfl
  cases e2
  case some e => simp [Ver4Var1] at hu
  case none =>
  obtain ⟨hl2, hh2⟩ := h4a rfl
  cases e3
  case some e => simp [Ver4Var1] at hu
  case none =>
  obtain ⟨hl3, hh3⟩ := h4b rfl
  cases v3
  case nil => simp at hl3
  case cons c3 t3 =>
  cases ei
  case some e => simp [Ver4Var1, randInt, Option.dite_none_right_eq_some] at hu
  case none =>
  cases e4
  case some e => simp [Ver4Var1, randInt, Option.dite_none_right_eq_some] at hu
  case none =>
  obtain ⟨hl4, hh4⟩ := h4c rfl
  cases v4
  case nil => simp at hl4
  case cons c4 t4 =>
  cases e5
  case some e => simp [Ver4Var1, randInt, Option.dite_none_right_eq_some] at hu
  case none =>
  obtain ⟨hl5, hh5⟩ := h12 rfl
  simp only [Ver4Var1, randInt, Option.dite_none_right_eq_some, Option.some.injEq,
    Prod.mk.injEq] at hu
  obtain ⟨hidx, huu, -⟩ := hu
  have hT3l : t3.length = 3 := by simpa using hl3
  have hT3h : t3.all isHexDigit = true := by
    simp only [List.all_cons, Bool.and_eq_true] at hh3
    exact hh3.2
  have hT4l : t4.length = 3 := by simpa using hl4
  have hT4h : t4.all isHexDigit = true := by
    simp only [List.all_cons, Bool.and_eq_true] at hh4
    exact hh4.2
  have hv := variant1Chars_get ⟨(vi + 0).toNat, hidx.2⟩
  have hv6 : variant1Chars.get ⟨(vi + 0).toNat, hidx.2⟩ = '8' ∨
      variant1Chars.get ⟨(vi + 0).toNat, hidx.2⟩ = '9' ∨
      variant1Chars.get ⟨(vi + 0).toNat, hidx.2⟩ = 'A' ∨
      variant1Chars.get ⟨(vi + 0).toNat, hidx.2⟩ = 'B' ∨
      variant1Chars.get ⟨(vi + 0).toNat, hidx.2⟩ = 'a' ∨
      variant1Chars.get ⟨(vi + 0).toNat, hidx.2⟩ = 'b' := by tauto
  have hrun : regexRun u = some [] := by
    rw [← huu]
    exact regexRun_assembled hl1 hh1 hl2 hh2 hT3l hT3h hv6 hT4l hT4h hl5 hh5
  refine ⟨by simpa [uuidV4RegexMatch] using hrun, ?_, ?_, ?_⟩
  · rw [← huu]
    simp [hl1, hl2, hT3l, hT4l, hl5]
  · rw [← huu]
    have hre : v1 ++ ('-' :: (v2 ++ ('-' :: (('4' :: t3) ++
        ('-' :: ((variant1Chars.get ⟨(vi + 0).toNat, hidx.2⟩ :: t4) ++ ('-' :: v5))))))) =
        (v1 ++ ['-'] ++ v2 ++ ['-']) ++ ('4' :: (t3 ++
          ('-' :: ((variant1Chars.get ⟨(vi + 0).toNat, hidx.2⟩ :: t4) ++ ('-' :: v5))))) := by
      simp [List.append_assoc, List.cons_append, List.singleton_append]
    rw [hre]
    exact getD_append_cons (by simp [hl1, hl2]) _ _
  · rw [← huu]
    have hre : v1 ++ ('-' :: (v2 ++ ('-' :: (('4' :: t3) ++
        ('-' :: ((variant1Chars.get ⟨(vi + 0).toNat, hidx.2⟩ :: t4) ++ ('-' :: v5))))))) =
        (v1 ++ ['-'] ++ v2 ++ ['-', '4'] ++ t3 ++ ['-']) ++
          (variant1Chars.get ⟨(vi + 0).toNat, hidx.2⟩ :: (t4 ++ ('-' :: v5))) := by
      simp [List.append_assoc, List.cons_append, List.singleton_append]
    rw [hre, getD_append_cons (by simp [hl1, hl2, hT3l]) _ _]
    exact hv


/-! ### Concrete inputs used by witnesses and counterexamples -/

/-- A layout-valid identifier whose variant nibble is `9`. -/
def goodStr : GoStr := "abcdef01-2345-4abc-9def-0123456789ab".data

/-- `goodStr` with its version digit changed to `5`. -/
def verFiveStr : GoStr := "abcdef01-2345-5abc-9def-0123456789ab".data

/-- `goodStr` with its variant nibble changed to `C`. -/
def varCStr : GoStr := "abcdef01-2345-4abc-Cdef-0123456789ab".data

/-- `goodStr` with its variant nibble changed to `0`. -/
def varZeroStr : GoStr := "abcdef01-2345-4abc-0def-0123456789ab".data

/-- A valid identifier mixing upper and lower case, variant nibble `a`. -/
def mixedCaseA : GoStr := "AbCdEf01-2345-4FaB-aD9c-0123456789aB".data

/-- A valid identifier mixing upper and lower case, variant nibble `b`. -/
def mixedCaseB : GoStr := "0f3BcD77-Ee21-4c0A-b9dC-aA12bB34cC56".data

/-- A tape on which every random draw succeeds. -/
def okTape : RandTape :=
  ⟨("0123abcd".data, none), ("ef01".data, none), ("2345".data, none),
   ((2 : Int), none), ("6789".data, none), ("abcdefabcdef".data, none)⟩

/-- The identifier `Ver4Var1` produces from `okTape`. -/
def okTapeOut : GoStr := "0123abcd-ef01-4345-A789-abcdefabcdef".data

/-- A contract-satisfying tape whose hex draws are all lower-case. -/
def lowercaseTape : RandTape :=
  ⟨("aaaaaaaa".data, none), ("bbbb".data, none), ("cccc".data, none),
   ((2 : Int), none), ("dddd".data, none), ("eeeeeeeeeeee".data, none)⟩

/-- A tape whose first hex draw fails. -/
def errTape : RandTape :=
  ⟨([], some "entropy exhausted".data), ("ef01".data, none), ("2345".data, none),
   ((1 : Int), none), ("6789".data, none), ("abcdefabcdef".data, none)⟩

/-! ### Claim theorems -/

/-- C1: `Ver4Var1FromString s` succeeds if and only if `s` is exactly 36
characters with hyphens at 0-indexed positions 8, 13, 18, 23, hex digits at
every other position, the literal `4` at position 14 and a character of
`{8,9,A,B}` (case-insensitively) at position 19 (`specValid`); on success it
returns exactly the input string, with no case normalization.  The claim
instances — version digit `5` or variant nibble `C`/`0` rejected, variant
`9` accepted — are evaluated in the accompanying witness. -/
theorem c1_parse_iff_layout (s : GoStr) :
    ((Ver4Var1FromString s).2 = none ↔ specValid s = true) ∧
    ((Ver4Var1FromString s).2 = none → Ver4Var1FromString s = (s, none)) := by
  have hiff : (Ver4Var1FromString s).2 = none ↔ specValid s = true := by
    constructor
    · intro h
      unfold Ver4Var1FromString at h
      split_ifs at h with h1 h2
      exact (regexMatch_iff_specValid s).mp h2
    · intro h
      have hlen := specValid_length h
      have hm := (regexMatch_iff_specValid s).mpr h
      simp [Ver4Var1FromString, hlen, hm]
  refine ⟨hiff, fun h => ?_⟩
  have hs := hiff.mp h
  have hlen := specValid_length hs
  have hm := (regexMatch_iff_specValid s).mpr hs
  simp [Ver4Var1FromString, hlen, hm]

/-- C1 witness: the variant nibble `9` is accepted (and the input returned
unchanged); version `5` and variants `C` and `0` are rejected. -/
theorem c1_witness :
    Ver4Var1FromString goodStr = (goodStr, none) ∧
    (Ver4Var1FromString verFiveStr).2 ≠ none ∧
    (Ver4Var1FromString varCStr).2 ≠ none ∧
    (Ver4Var1FromString varZeroStr).2 ≠ none := by
  refine ⟨?_, ?_, ?_, ?_⟩
  · exact (c1_parse_iff_layout goodStr).2 ((c1_parse_iff_layout goodStr).1.mpr (by decide))
  · exact fun h => absurd ((c1_parse_iff_layout verFiveStr).1.mp h) (by decide)
  · exact fun h => absurd ((c1_parse_iff_layout varCStr).1.mp h) (by decide)
  · exact fun h => absurd ((c1_parse_iff_layout varZeroStr).1.mp h) (by decide)

/-- C4: the boolean predicate `IsValid` is exactly as strict as the parser
`Ver4Var1FromString`: it returns `true` precisely when the parser succeeds,
even though `IsValid` omits the explicit length-36 check of the parser (the
anchored regex already forces length 36). -/
theorem c4_isValid_iff_parse (s : GoStr) :
    IsValid s = true ↔ (Ver4Var1FromString s).2 = none := by
  constructor
  · intro h
    have hm : uuidV4RegexMatch s = true := h
    have hlen := uuidV4RegexMatch_length hm
    simp [Ver4Var1FromString, hlen, hm]
  · intro h
    unfold Ver4Var1FromString at h
    split_ifs at h with h1 h2
    exact h2

/-- C4 witness: `IsValid` and the parser agree on the zero identifier. -/
theorem c4_witness :
    (Ver4Var1FromString "00000000-0000-4000-8000-000000000000".data).2 = none :=
  (c4_isValid_iff_parse "00000000-0000-4000-8000-000000000000".data).mp (by decide)

/-- C8: `Zero()` returns the UUID whose string form is exactly
`00000000-0000-4000-8000-000000000000` and that string is `IsValid`.
`Zero` is a constant of the embedding (the Go value is initialized once and
never mutated), so every call returns this same value. -/
theorem c8_zero_constant :
    Zero = some "00000000-0000-4000-8000-000000000000".data ∧
    IsValid "00000000-0000-4000-8000-000000000000".data = true := by decide

/-- C10: validation is case-insensitive independently per character:
identifiers freely mixing upper- and lower-case hex digits are accepted by
both `IsValid` and `Ver4Var1FromString`, including a lower-case `a` or `b`
in the variant-nibble position 19. -/
theorem c10_mixed_case :
    IsValid mixedCaseA = true ∧ Ver4Var1FromString mixedCaseA = (mixedCaseA, none) ∧
    mixedCaseA.getD 19 ' ' = 'a' ∧
    IsValid mixedCaseB = true ∧ Ver4Var1FromString mixedCaseB = (mixedCaseB, none) ∧
    mixedCaseB.getD 19 ' ' = 'b' := by decide


/-- C2: every successful output `u` of `Ver4Var1` — given the random hex
helper contract that successful draws are hex strings of the requested
length — satisfies `IsValid u`, has length 36, has the literal `4` at
position 14, and has one of `8`, `9`, `A`, `B` at position 19. -/
theorem c2_generate_layout (t : RandTape) (h8 : HexDraw t.hex8 8)
    (h4a : HexDraw t.hex4a 4) (h4b : HexDraw t.hex4b 4) (h4c : HexDraw t.hex4c 4)
    (h12 : HexDraw t.hex12 12) {u : GoStr} (hu : Ver4Var1 t = some (u, none)) :
    IsValid u = true ∧ u.length = 36 ∧ u.getD 14 ' ' = '4' ∧
      (u.getD 19 ' ' = '8' ∨ u.getD 19 ' ' = '9' ∨ u.getD 19 ' ' = 'A' ∨
        u.getD 19 ' ' = 'B') :=
  ver4var1_ok t h8 h4a h4b h4c h12 hu

/-- C2 witness: the concrete tape `okTape` yields
`0123abcd-ef01-4345-A789-abcdefabcdef`, which satisfies the layout. -/
theorem c2_witness :
    IsValid okTapeOut = true ∧ okTapeOut.length = 36 ∧ okTapeOut.getD 14 ' ' = '4' ∧
      (okTapeOut.getD 19 ' ' = '8' ∨ okTapeOut.getD 19 ' ' = '9' ∨
        okTapeOut.getD 19 ' ' = 'A' ∨ okTapeOut.getD 19 ' ' = 'B') :=
  c2_generate_layout okTape (by decide) (by decide) (by decide) (by decide)
    (by decide) (by decide)

/-- C3: round-trip — every identifier successfully produced by `Ver4Var1`
(under the hex helper contract) is parsed back by `Ver4Var1FromString`,
which succeeds and returns a string equal to it. -/
theorem c3_roundtrip (t : RandTape) (h8 : HexDraw t.hex8 8)
    (h4a : HexDraw t.hex4a 4) (h4b : HexDraw t.hex4b 4) (h4c : HexDraw t.hex4c 4)
    (h12 : HexDraw t.hex12 12) {u : GoStr} (hu : Ver4Var1 t = some (u, none)) :
    Ver4Var1FromString u = (u, none) := by
  obtain ⟨hm, hlen, -, -⟩ := ver4var1_ok t h8 h4a h4b h4c h12 hu
  have hm' : uuidV4RegexMatch u = true := hm
  simp [Ver4Var1FromString, hlen, hm']

/-- C3 witness: the output generated from `okTape` parses back to itself. -/
theorem c3_witness : Ver4Var1FromString okTapeOut = (okTapeOut, none) :=
  c3_roundtrip okTape (by decide) (by decide) (by decide) (by decide) (by decide)
    (by decide)

/-- C5 counterexample: the claim that a `Ver4Var1` output never mixes case
conventions is false.  `lowercaseTape` satisfies the random helpers'
contracts (lower-case hex digits are legitimate hex-helper output), yet the
generated identifier contains both the lower-case digit `a` and the
upper-case variant nibble `A`. -/
theorem c5_counterexample :
    (HexDraw lowercaseTape.hex8 8 ∧ HexDraw lowercaseTape.hex4a 4 ∧
      HexDraw lowercaseTape.hex4b 4 ∧ IntDraw4 lowercaseTape.int4 ∧
      HexDraw lowercaseTape.hex4c 4 ∧ HexDraw lowercaseTape.hex12 12) ∧
    Ver4Var1 lowercaseTape =
      some ("aaaaaaaa-bbbb-4ccc-Addd-eeeeeeeeeeee".data, none) ∧
    'a' ∈ "aaaaaaaa-bbbb-4ccc-Addd-eeeeeeeeeeee".data ∧
    'A' ∈ "aaaaaaaa-bbbb-4ccc-Addd-eeeeeeeeeeee".data := by decide

/-- C5 (amended): the variant nibble of every successful `Ver4Var1` output
is one of the upper-case characters `8`, `9`, `A`, `B` drawn from
`variant1Chars`; the code applies no case normalization tying it to the case
of the hex helper digits, so one output can mix case conventions whenever
the helper returns lower-case hex letters. -/
theorem c5_variant_from_upper_alphabet (t : RandTape) (h8 : HexDraw t.hex8 8)
    (h4a : HexDraw t.hex4a 4) (h4b : HexDraw t.hex4b 4) (h4c : HexDraw t.hex4c 4)
    (h12 : HexDraw t.hex12 12) {u : GoStr} (hu : Ver4Var1 t = some (u, none)) :
    u.getD 19 ' ' = '8' ∨ u.getD 19 ' ' = '9' ∨ u.getD 19 ' ' = 'A' ∨
      u.getD 19 ' ' = 'B' :=
  (ver4var1_ok t h8 h4a h4b h4c h12 hu).2.2.2

/-- C5 witness: on `lowercaseTape` the variant nibble is the upper-case `A`
even though every random hex digit is lower-case. -/
theorem c5_witness :
    ("aaaaaaaa-bbbb-4ccc-Addd-eeeeeeeeeeee".data).getD 19 ' ' = '8' ∨
    ("aaaaaaaa-bbbb-4ccc-Addd-eeeeeeeeeeee".data).getD 19 ' ' = '9' ∨
    ("aaaaaaaa-bbbb-4ccc-Addd-eeeeeeeeeeee".data).getD 19 ' ' = 'A' ∨
    ("aaaaaaaa-bbbb-4ccc-Addd-eeeeeeeeeeee".data).getD 19 ' ' = 'B' :=
  c5_variant_from_upper_alphabet lowercaseTape (by decide) (by decide) (by decide)
    (by decide) (by decide) (by decide)

/-- C6: if any draw from the random source fails — any hex draw or the
`randInt` primitive returns an error — then `Ver4Var1` (whose other draws
meet the random primitives' contracts, so no panic intervenes) returns an
error, with the empty string as the identifier component: no fallback value
is produced. -/
theorem c6_error_propagation (t : RandTape) (h8 : HexDraw t.hex8 8)
    (h4a : HexDraw t.hex4a 4) (h4b : HexDraw t.hex4b 4) (hi : IntDraw4 t.int4)
    (h4c : HexDraw t.hex4c 4) (h12 : HexDraw t.hex12 12)
    (herr : t.hex8.2 ≠ none ∨ t.hex4a.2 ≠ none ∨ t.hex4b.2 ≠ none ∨
      t.int4.2 ≠ none ∨ t.hex4c.2 ≠ none ∨ t.hex12.2 ≠ none) :
    ∃ e, Ver4Var1 t = some ([], some e) := by
  obtain ⟨⟨v1, e1⟩, ⟨v2, e2⟩, ⟨v3, e3⟩, ⟨vi, ei⟩, ⟨v4, e4⟩, ⟨v5, e5⟩⟩ := t
  cases e1
  case some e => exact ⟨wrapVer4Var1Err e, by simp [Ver4Var1]⟩
  case none =>
  cases e2
  case some e => exact ⟨wrapVer4Var1Err e, by simp [Ver4Var1]⟩
  case none =>
  cases e3
  case some e => exact ⟨wrapVer4Var1Err e, by simp [Ver4Var1]⟩
  case none =>
  obtain ⟨hl3, -⟩ := h4b rfl
  cases v3
  case nil => simp at hl3
  case cons c3 t3 =>
  cases ei
  case some e => exact ⟨wrapVer4Var1Err e, by simp [Ver4Var1, randInt]⟩
  case none =>
  have hi0 : (0 : Int) ≤ vi := (hi rfl).1
  have hi4 : vi < 4 := (hi rfl).2
  have h4n : variant1Chars.length = 4 := by decide
  have hidx : 0 ≤ vi + 0 ∧ (vi + 0).toNat < variant1Chars.length := by
    refine ⟨by omega, ?_⟩
    rw [h4n]
    omega
  have hidx' : 0 ≤ vi ∧ vi.toNat < variant1Chars.length := by simpa using hidx
  cases e4
  case some e =>
    exact ⟨wrapVer4Var1Err e, by simp [Ver4Var1, randInt, hidx, hidx', hidx'.1, hidx'.2]⟩
  case none =>
  obtain ⟨hl4, -⟩ := h4c rfl
  cases v4
  case nil => simp at hl4
  case cons c4 t4 =>
  cases e5
  case some e =>
    exact ⟨wrapVer4Var1Err e, by simp [Ver4Var1, randInt, hidx, hidx', hidx'.1, hidx'.2]⟩
  case none =>
  simp at herr

/-- C6 witness: on a tape whose first hex draw fails, generation returns an
error with the empty identifier. -/
theorem c6_witness : ∃ e, Ver4Var1 errTape = some ([], some e) :=
  c6_error_propagation errTape (by decide) (by decide) (by decide) (by decide)
    (by decide) (by decide) (by decide)

/-- C7: the must-variants are thin wrappers over the fallible cores:
`MustVer4Var1FromString s` panics (modelled `none`) exactly when
`Ver4Var1FromString s` errors and otherwise returns the same UUID;
`MustVer4Var1` returns the same UUID as a successful `Ver4Var1` and panics
when `Ver4Var1` returns an error. -/
theorem c7_must_wrappers :
    (∀ s : GoStr,
      ((Ver4Var1FromString s).2 = none →
        MustVer4Var1FromString s = some (Ver4Var1FromString s).1) ∧
      ((Ver4Var1FromString s).2 ≠ none → MustVer4Var1FromString s = none)) ∧
    (∀ (t : RandTape) (u : GoStr), Ver4Var1 t = some (u, none) →
      MustVer4Var1 t = some u) ∧
    (∀ (t : RandTape) (v e : GoStr), Ver4Var1 t = some (v, some e) →
      MustVer4Var1 t = none) := by
  refine ⟨fun s => ⟨?_, ?_⟩, fun t u h => ?_, fun t v e h => ?_⟩
  · intro h
    rcases hE : Ver4Var1FromString s with ⟨a, _ | e⟩
    · simp [MustVer4Var1FromString, hE]
    · rw [hE] at h
      simp at h
  · intro h
    rcases hE : Ver4Var1FromString s with ⟨a, _ | e⟩
    · rw [hE] at h
      simp at h
    · simp [MustVer4Var1FromString, hE]
  · simp [MustVer4Var1, h]
  · simp [MustVer4Var1, h]

/-- C7 witness: concrete instances of all four wrapper behaviours. -/
theorem c7_witness :
    MustVer4Var1FromString goodStr = some goodStr ∧
    MustVer4Var1FromString "nope".data = none ∧
    MustVer4Var1 okTape = some okTapeOut ∧
    MustVer4Var1 errTape = none := by
  refine ⟨?_, ?_, ?_, ?_⟩
  · have h := (c7_must_wrappers.1 goodStr).1 (by decide)
    rw [show (Ver4Var1FromString goodStr).1 = goodStr by decide] at h
    exact h
  · exact (c7_must_wrappers.1 ("nope".data)).2 (by decide)
  · exact c7_must_wrappers.2.1 okTape okTapeOut (by decide)
  · exact c7_must_wrappers.2.2 errTape []
      (wrapVer4Var1Err "entropy exhausted".data) (by decide)

/-- C9: assuming the secure random integer primitive returns a value in
`[0, n)` for its modulus `n` — here `diff = (len(variant1Chars)-1) - 0 + 1
= 4` — `randInt 0 (len(variant1Chars)-1)` succeeds with an index `idx`
satisfying `0 ≤ idx ≤ 3`, and `idx` is within the bounds of
`variant1Chars`, so the byte access `variant1Chars[idx]` in `Ver4Var1`
never panics. -/
theorem c9_randInt_bounds (d : GoRes Int) (hok : d.2 = none) (h0 : 0 ≤ d.1)
    (h4 : d.1 < 4) :
    (randInt 0 ((variant1Chars.length : Int) - 1) d).2 = none ∧
    0 ≤ (randInt 0 ((variant1Chars.length : Int) - 1) d).1 ∧
    (randInt 0 ((variant1Chars.length : Int) - 1) d).1 ≤ 3 ∧
    (randInt 0 ((variant1Chars.length : Int) - 1) d).1.toNat <
      variant1Chars.length := by
  obtain ⟨n, e⟩ := d
  cases e
  case some e => simp at hok
  case none =>
  simp only at h0 h4
  simp only [randInt]
  have h4n : variant1Chars.length = 4 := by decide
  refine ⟨by trivial, by omega, by omega, ?_⟩
  rw [h4n]
  omega

/-- C9 witness: a concrete in-range draw. -/
theorem c9_witness :
    (randInt 0 ((variant1Chars.length : Int) - 1) ((2 : Int), (none : Option GoStr))).2 = none ∧
    0 ≤ (randInt 0 ((variant1Chars.length : Int) - 1) ((2 : Int), (none : Option GoStr))).1 ∧
    (randInt 0 ((variant1Chars.length : Int) - 1) ((2 : Int), (none : Option GoStr))).1 ≤ 3 ∧
    (randInt 0 ((variant1Chars.length : Int) - 1) ((2 : Int), (none : Option GoStr))).1.toNat <
      variant1Chars.length :=
  c9_randInt_bounds ((2 : Int), none) (by decide) (by decide) (by decide)

end uuid
